import Mathlib

/-!
Shallow embedding of the `nlquery` package of the Jaeger repository
(cmd/jaeger/internal/extension/jaegerquery/internal/nlquery): the session
store (session.go), the analyzer orchestration (analyzer source file), the
heuristic extractor (heuristic.go) and the model-backed extractor together
with the `SearchParams` decoding boundary (params.go, llm extractor file).

Modelling conventions:
- `time.Time` / `time.Duration` are embedded as `Int` nanoseconds; every
  operation that calls `time.Now()` takes the current instant as an explicit
  `now : Int` parameter.
- The Go map `map[string]*Session` is embedded as an association list;
  map writes cons the new binding in front of the list with the old binding
  erased, and reads use `List.lookup`.
- `crypto/rand` is embedded by passing the 16 random bytes as an argument to
  `generateSessionID`.
- The generative model (`llms.Model.GenerateContent`) is embedded as a
  function from the outbound message list to its outcome, so that a model
  failure, an empty-choice response and a successful response can all be
  analysed.
-/

namespace NLQuery

/-! ## Message / Session model (session.go) -/

/-- session.go: `defaultSessionTTL = 30 * time.Minute`, in nanoseconds. -/
def defaultSessionTTL : Int := 30 * 60 * 1000000000

/-- session.go: `maxMessagesPerSession = 50`. -/
def maxMessagesPerSession : Nat := 50

/-- session.go: `RoleUser MessageRole = "user"` (MessageRole is a string type). -/
def RoleUser : String := "user"

/-- session.go: `RoleAssistant MessageRole = "assistant"`. -/
def RoleAssistant : String := "assistant"

/-- session.go: `RoleSystem MessageRole = "system"`. -/
def RoleSystem : String := "system"

/-- session.go: `Message` — a single turn in the conversation history. -/
structure Message where
  Role : String
  Content : String
deriving DecidableEq

/-- session.go: `Session` — conversation state for a single interaction. -/
structure Session where
  ID : String
  Messages : List Message
  CreatedAt : Int
  UpdatedAt : Int
deriving DecidableEq

/-- session.go: `SessionManager` — the session map plus the configured TTL.
The mutex and the background-GC channel have no functional content and are
not represented. -/
structure SessionManager where
  sessions : List (String × Session)
  ttl : Int
deriving DecidableEq

/-- Removal of a key from the session map (`delete(sm.sessions, id)`). -/
def eraseSession (id : String) (l : List (String × Session)) :
    List (String × Session) :=
  l.filter (fun p => p.1 != id)

/-- session.go: `NewSessionManager(ttl)` — substitutes the default TTL when
`ttl <= 0`. -/
def NewSessionManager (ttl : Int) : SessionManager :=
  { sessions := [], ttl := if ttl ≤ 0 then defaultSessionTTL else ttl }

/-- session.go: `SessionManager.Create` — the fresh random id is passed as
the `id` argument; both timestamps are set to `now`. -/
def SessionManager.Create (sm : SessionManager) (now : Int) (id : String) :
    Session × SessionManager :=
  let s : Session := { ID := id, Messages := [], CreatedAt := now, UpdatedAt := now }
  (s, { sm with sessions := (id, s) :: eraseSession id sm.sessions })

/-- session.go: `SessionManager.Get` — returns `none` if absent, or if
inactive longer than the TTL (in which case the entry is removed). -/
def SessionManager.Get (sm : SessionManager) (now : Int) (id : String) :
    Option Session × SessionManager :=
  match sm.sessions.lookup id with
  | none => (none, sm)
  | some s =>
    if now - s.UpdatedAt > sm.ttl then
      (none, { sm with sessions := eraseSession id sm.sessions })
    else
      (some s, sm)

/-- session.go, body of the eviction loop in `AddMessage`: remove the first
message whose role is not "system"; if every message is a system message the
list is unchanged. -/
def evictOldestNonSystem : List Message → List Message
  | [] => []
  | m :: rest =>
    if m.Role = RoleSystem then m :: evictOldestNonSystem rest else rest

/-- session.go, the message-list update performed by a successful
`AddMessage`: evict when at capacity, then append. -/
def addMessageToList (msgs : List Message) (m : Message) : List Message :=
  let msgs := if msgs.length ≥ maxMessagesPerSession then evictOldestNonSystem msgs else msgs
  msgs ++ [m]

/-- session.go: `SessionManager.AddMessage` — fails if the session is absent
or expired (lazily removing it); otherwise evicts/appends and refreshes
`UpdatedAt` to `now`. -/
def SessionManager.AddMessage (sm : SessionManager) (now : Int) (id : String)
    (role content : String) : Bool × SessionManager :=
  match sm.sessions.lookup id with
  | none => (false, sm)
  | some s =>
    if now - s.UpdatedAt > sm.ttl then
      (false, { sm with sessions := eraseSession id sm.sessions })
    else
      let s' : Session :=
        { s with Messages := addMessageToList s.Messages { Role := role, Content := content },
                 UpdatedAt := now }
      (true, { sm with sessions := (id, s') :: eraseSession id sm.sessions })

/-- session.go: `SessionManager.Delete` — unconditional removal. -/
def SessionManager.Delete (sm : SessionManager) (id : String) : SessionManager :=
  { sm with sessions := eraseSession id sm.sessions }

/-- session.go: `sweep` — removes every expired session. -/
def SessionManager.sweep (sm : SessionManager) (now : Int) : SessionManager :=
  { sm with sessions := sm.sessions.filter (fun p => !(now - p.2.UpdatedAt > sm.ttl)) }

/-- The byte-to-character table of Go `encoding/hex` ("0123456789abcdef"). -/
def hextable : List Char := "0123456789abcdef".data

/-- One byte rendered as two hex characters, as in `hex.EncodeToString`. -/
def byteToHex (b : Nat) : List Char :=
  [hextable.getD (b / 16) '0', hextable.getD (b % 16) '0']

/-- session.go: `generateSessionID` — hex encoding of 16 random bytes; the
bytes read from `crypto/rand` are the argument. -/
def generateSessionID (bytes : List Nat) : String :=
  String.mk ((bytes.map byteToHex).flatten)

/-! ## Analyzer (analyzer source file) -/

/-- The LangChainGo chat-message role taxonomy used by the analyzer
(`llms.ChatMessageTypeSystem` / `AI` / `Human`). -/
inductive ChatMessageType where
  | system
  | ai
  | human
deriving DecidableEq

/-- One outbound chat message (`llms.MessageContent` restricted to its text
part, as built by `llms.TextParts`). -/
structure MessageContent where
  role : ChatMessageType
  content : String
deriving DecidableEq

/-- Outcome of `model.GenerateContent` for the analyzer: either a provider
error, or a response carrying the content strings of its choices. -/
inductive LLMResult where
  | failure (e : String)
  | success (choices : List String)
deriving DecidableEq

/-- The generative model as seen by the analyzer: a function from the
outbound message list to the call outcome. Sampling configuration
(temperature, max tokens) only parameterises the external model and is
absorbed into this function. -/
def LLMModel : Type := List MessageContent → LLMResult

/-- analyzer file: `spanAnalysisSystemPrompt` (verbatim). -/
def spanAnalysisSystemPrompt : String :=
  "You are an expert distributed systems engineer analyzing trace data from Jaeger, a distributed tracing platform.\n\nYour task is to analyze a single span and provide a clear, concise explanation of:\n1. What this span represents (the operation it performs)\n2. Whether it completed successfully or failed, and why\n3. Any performance concerns (is the duration unusually long?)\n4. Key attributes that indicate important behavior\n5. Any events/logs that provide additional context\n\nKeep your response concise and actionable. Focus on what would help a developer debug or understand this span.\nDo NOT make up information that is not present in the span data.\nIf you see error status or error-related attributes, highlight them prominently."

/-- analyzer file: `buildMessagesFromSession` — stored "system" maps to
model-system, "assistant" to model-AI, anything else to model-human. -/
def Analyzer.buildMessagesFromSession (session : Session) : List MessageContent :=
  session.Messages.map (fun msg =>
    let role : ChatMessageType :=
      if msg.Role = RoleSystem then .system
      else if msg.Role = RoleAssistant then .ai
      else .human
    { role := role, content := msg.Content })

/-- analyzer file: `callModel` — wraps a provider error, treats an empty
choice list as a distinct failure, and returns the first choice's content. -/
def Analyzer.callModel (model : LLMModel) (messages : List MessageContent) :
    Except String String :=
  match model messages with
  | .failure e => .error ("llm generation failed: " ++ e)
  | .success [] => .error "llm returned empty response"
  | .success (c :: _) => .ok c

/-- The `(response, sid, err)` triple returned by `analyze` (Go returns the
session id also on a model failure). -/
structure AnalyzeResult where
  response : String
  sid : String
  err : Option String
deriving DecidableEq

/-- Shared tail of `analyze` once the session is resolved: build the
outbound messages, invoke the model, and on success persist the user turn
and the response as two ordered appends. -/
def Analyzer.analyzeResolved (model : LLMModel) (sm : SessionManager) (now : Int)
    (session : Session) (userPrompt : String) : AnalyzeResult × SessionManager :=
  let messages := Analyzer.buildMessagesFromSession session ++
    [{ role := .human, content := userPrompt }]
  match Analyzer.callModel model messages with
  | .error e => ({ response := "", sid := session.ID, err := some e }, sm)
  | .ok response =>
    let (_, sm1) := sm.AddMessage now session.ID RoleUser userPrompt
    let (_, sm2) := sm1.AddMessage now session.ID RoleAssistant response
    ({ response := response, sid := session.ID, err := none }, sm2)

/-- analyzer file: `Analyzer.analyze` — resolves or creates the session
(seeding a fresh session with the system prompt as its first stored message;
the created `*Session` is aliased by the map, so the seeded message list is
re-read from the store), then runs the shared pipeline. `freshId` stands for
the id `Create` would draw from `crypto/rand`. -/
def Analyzer.analyze (model : LLMModel) (sm : SessionManager) (now : Int)
    (freshId : String) (systemPrompt userPrompt sessionID : String) :
    AnalyzeResult × SessionManager :=
  if sessionID != "" then
    match sm.Get now sessionID with
    | (none, sm1) =>
      ({ response := "", sid := "", err := some "session not found or expired" }, sm1)
    | (some session, sm1) =>
      Analyzer.analyzeResolved model sm1 now session userPrompt
  else
    let (created, sm1) := sm.Create now freshId
    let (_, sm2) := sm1.AddMessage now created.ID RoleSystem systemPrompt
    let session := (sm2.sessions.lookup created.ID).getD created
    Analyzer.analyzeResolved model sm2 now session userPrompt

/-- analyzer file: `Analyzer.AnalyzeSpan` — the rendered span text
(`FormatPrunedSpanForLLM span`) is the `spanText` argument. -/
def Analyzer.AnalyzeSpan (model : LLMModel) (sm : SessionManager) (now : Int)
    (freshId : String) (spanText sessionID : String) :
    AnalyzeResult × SessionManager :=
  Analyzer.analyze model sm now freshId spanAnalysisSystemPrompt
    ("Explain this span:\n\n" ++ spanText) sessionID

/-- analyzer file: `Analyzer.FollowUp` — requires a non-empty session id,
fails if the session is absent or expired, and on success persists the
question and the answer. -/
def Analyzer.FollowUp (model : LLMModel) (sm : SessionManager) (now : Int)
    (question sessionID : String) : Except String String × SessionManager :=
  if sessionID == "" then
    (.error "session_id is required for follow-up questions", sm)
  else
    match sm.Get now sessionID with
    | (none, sm1) => (.error "session not found or expired", sm1)
    | (some session, sm1) =>
      let messages := Analyzer.buildMessagesFromSession session ++
        [{ role := .human, content := question }]
      match Analyzer.callModel model messages with
      | .error e => (.error e, sm1)
      | .ok response =>
        let (_, sm2) := sm1.AddMessage now sessionID RoleUser question
        let (_, sm3) := sm2.AddMessage now sessionID RoleAssistant response
        (.ok response, sm3)

/-! ## Heuristic extractor (heuristic.go)

The precompiled Go regular expressions are embedded as abstract syntax trees
over character classes, matched by a backtracking matcher with Go/Perl
leftmost-first semantics (earliest starting position; at that position, the
first match found by a backtracking search: ordered alternation, greedy
repetition with backtracking). Repetition in these patterns only ever
applies to single-character classes, which the `starCls` constructor
reflects. -/

/-- Regular-expression syntax used by heuristic.go's patterns. -/
inductive Re where
  | eps : Re
  | cls (p : Char → Bool) : Re
  | cat (a b : Re) : Re
  | alt (a b : Re) : Re
  | starCls (p : Char → Bool) : Re
  | opt (r : Re) : Re
  | group (idx : Nat) (r : Re) : Re
  | wordB : Re

/-- Submatch captures: group index paired with the captured characters. -/
def Caps : Type := List (Nat × List Char)

/-- RE2 `\w` (ASCII word character), used by the `\b` assertion. -/
def isWordChar (c : Char) : Bool := c.isAlphanum || c == '_'

/-- RE2 `\b`: a word/non-word transition between the previous character and
the next character of the remaining input. -/
def wordBoundaryAt (prev : Option Char) (s : List Char) : Bool :=
  let a := match prev with | some c => isWordChar c | none => false
  let b := match s with | c :: _ => isWordChar c | [] => false
  a != b

/-- Greedy repetition of a character class: try consuming `j` characters,
longest first, backtracking into shorter runs when the continuation fails. -/
def tryLengths (s : List Char) (prev : Option Char) (caps : Caps)
    (k : List Char → Option Char → Caps → Option Caps) : Nat → Option Caps
  | 0 => k s prev caps
  | j + 1 =>
    match k (s.drop (j + 1)) (s.get? j) caps with
    | some r => some r
    | none => tryLengths s prev caps k j

/-- Backtracking matcher in continuation style. `s` is the remaining input,
`prev` the character just before it (for `\b`), `caps` the captures so far;
`k` is invoked on every candidate way for the expression to match a prefix
of `s`, in backtracking preference order. -/
def mtch : Re → List Char → Option Char → Caps →
    (List Char → Option Char → Caps → Option Caps) → Option Caps
  | .eps, s, prev, caps, k => k s prev caps
  | .cls p, s, _, caps, k =>
    match s with
    | [] => none
    | c :: rest => if p c then k rest (some c) caps else none
  | .cat a b, s, prev, caps, k =>
    mtch a s prev caps (fun s1 p1 c1 => mtch b s1 p1 c1 k)
  | .alt a b, s, prev, caps, k =>
    match mtch a s prev caps k with
    | some r => some r
    | none => mtch b s prev caps k
  | .starCls p, s, prev, caps, k =>
    tryLengths s prev caps k (s.takeWhile p).length
  | .opt r, s, prev, caps, k =>
    match mtch r s prev caps k with
    | some r' => some r'
    | none => k s prev caps
  | .group i r, s, prev, caps, k =>
    mtch r s prev caps (fun s1 p1 c1 =>
      k s1 p1 ((i, s.take (s.length - s1.length)) :: c1))
  | .wordB, s, prev, caps, k =>
    if wordBoundaryAt prev s then k s prev caps else none

/-- Match the expression at the current position (unanchored suffix). -/
def matchHere (r : Re) (s : List Char) (prev : Option Char) : Option Caps :=
  mtch r s prev [] (fun _ _ caps => some caps)

/-- Scan for the leftmost starting position with a match. -/
def findFrom (r : Re) : List Char → Option Char → Option Caps
  | s, prev =>
    match matchHere r s prev with
    | some caps => some caps
    | none =>
      match s with
      | [] => none
      | c :: rest => findFrom r rest (some c)

/-- Go `strings.ToLower` (on the ASCII range these patterns exercise). -/
def toLowerStr (s : String) : String := String.mk (s.data.map Char.toLower)

/-- Go `strings.TrimSpace`: drop leading and trailing whitespace. -/
def trimSpace (s : String) : String :=
  String.mk (((s.data.dropWhile Char.isWhitespace).reverse.dropWhile Char.isWhitespace).reverse)

/-- Go `Regexp.FindStringSubmatch`, reduced to the captures of the leftmost
match (`none` when the pattern does not match anywhere). -/
def FindStringSubmatch (r : Re) (input : String) : Option Caps :=
  findFrom r input.data none

/-- Group access on a capture list: the empty string for a group that did
not participate in the match, as in Go's submatch slice. -/
def capStr (caps : Caps) (i : Nat) : String :=
  match caps.lookup i with
  | some cs => String.mk cs
  | none => ""

/-- A single case-sensitive character. -/
def chr (c : Char) : Re := .cls (fun x => x == c)

/-- A single character under the `(?i)` flag. -/
def ichr (c : Char) : Re := .cls (fun x => x.toLower == c.toLower)

/-- Sequencing of a list of expressions. -/
def catList (rs : List Re) : Re := rs.foldr .cat .eps

/-- A case-sensitive literal. -/
def lit (s : String) : Re := catList (s.data.map chr)

/-- A literal under the `(?i)` flag. -/
def ilit (s : String) : Re := catList (s.data.map ichr)

/-- Ordered alternation of a list of alternatives. -/
def altList : List Re → Re
  | [] => .eps
  | [r] => r
  | r :: rest => .alt r (altList rest)

/-- RE2 `\s` (== `[\t\n\f\r ]`). -/
def isSpaceRE2 (c : Char) : Bool :=
  c == ' ' || c == '\t' || c == '\n' || c == '\x0c' || c == '\r'

/-- `\s+`. -/
def spacePlus : Re := .cat (.cls isSpaceRE2) (.starCls isSpaceRE2)

/-- `\s*`. -/
def spaceStar : Re := .starCls isSpaceRE2

/-- `\d`. -/
def digitRe : Re := .cls Char.isDigit

/-- `\d+`. -/
def digitPlus : Re := .cat digitRe (.starCls Char.isDigit)

/-- `\d{3}`. -/
def threeDigits : Re := catList [digitRe, digitRe, digitRe]

/-- `[a-z]` under `(?i)`. -/
def iLowerAZ (c : Char) : Bool := 'a' ≤ c.toLower && c.toLower ≤ 'z'

/-- `[a-z0-9_-]` under `(?i)`. -/
def svcNameChar (c : Char) : Bool :=
  iLowerAZ c || c.isDigit || c == '_' || c == '-'

/-- heuristic.go: `serviceFromPattern =
(?i)\bfrom\s+([a-z][a-z0-9_-]*(?:-service)?)\b`. -/
def serviceFromPattern : Re :=
  catList [.wordB, ilit "from", spacePlus,
    .group 1 (catList [.cls iLowerAZ, .starCls svcNameChar, .opt (ilit "-service")]),
    .wordB]

/-- heuristic.go: `serviceInPattern = (?i)\bin\s+([a-z][a-z0-9_-]*-service)\b`. -/
def serviceInPattern : Re :=
  catList [.wordB, ilit "in", spacePlus,
    .group 1 (catList [.cls iLowerAZ, .starCls svcNameChar, ilit "-service"]),
    .wordB]

/-- heuristic.go: `httpStatusPattern =
(?i)\b(?:(?:http\s+)?status(?:\s+code)?\s+(\d{3}))|(?:(\d{3})\s+errors?)\b`
(alternation binds loosest: the leading `\b` belongs to the first
alternative and the trailing `\b` to the second). -/
def httpStatusPattern : Re :=
  .alt
    (catList [.wordB, .opt (catList [ilit "http", spacePlus]), ilit "status",
      .opt (catList [spacePlus, ilit "code"]), spacePlus, .group 1 threeDigits])
    (catList [.group 2 threeDigits, spacePlus, ilit "error", .opt (ichr 's'), .wordB])

/-- `(\d+(?:\.\d+)?)\s*(milliseconds|seconds|minutes|hours|ms|s|m|h|us|ns)`,
the shared tail of both duration patterns, with its leading `\s*`. -/
def durationTail : Re :=
  catList [spaceStar,
    .group 1 (catList [digitPlus, .opt (catList [chr '.', digitPlus])]),
    spaceStar,
    .group 2 (altList [ilit "milliseconds", ilit "seconds", ilit "minutes",
      ilit "hours", ilit "ms", ilit "s", ilit "m", ilit "h", ilit "us", ilit "ns"])]

/-- heuristic.go: `minDurationPattern =
(?i)(?:(?:more|slower|longer|over)\s+than|taking\s+over|at\s+least|>\s*)\s*(...)`. -/
def minDurationPattern : Re :=
  .cat
    (altList [
      catList [altList [ilit "more", ilit "slower", ilit "longer", ilit "over"],
        spacePlus, ilit "than"],
      catList [ilit "taking", spacePlus, ilit "over"],
      catList [ilit "at", spacePlus, ilit "least"],
      catList [chr '>', spaceStar]])
    durationTail

/-- heuristic.go: `maxDurationPattern =
(?i)(?:(?:less|faster|shorter)\s+than|under|within|at\s+most|<\s*)\s*(...)`. -/
def maxDurationPattern : Re :=
  .cat
    (altList [
      catList [altList [ilit "less", ilit "faster", ilit "shorter"],
        spacePlus, ilit "than"],
      ilit "under",
      ilit "within",
      catList [ilit "at", spacePlus, ilit "most"],
      catList [chr '<', spaceStar]])
    durationTail

/-- `[/a-zA-Z0-9_{}.*-]` (case-sensitive; the brace characters are written
via their code points). -/
def opChar (c : Char) : Bool :=
  c == '/' || c.isAlpha || c.isDigit || c == '_' || c == Char.ofNat 123 ||
  c == Char.ofNat 125 || c == '.' || c == '*' || c == '-'

/-- heuristic.go: `operationPattern =
\b(GET|POST|PUT|DELETE|PATCH|HEAD|OPTIONS)\s+(/[/a-zA-Z0-9_{}.*-]+)`. -/
def operationPattern : Re :=
  catList [.wordB,
    .group 1 (altList [lit "GET", lit "POST", lit "PUT", lit "DELETE",
      lit "PATCH", lit "HEAD", lit "OPTIONS"]),
    spacePlus,
    .group 2 (catList [chr '/', .cls opChar, .starCls opChar])]

/-- heuristic.go: `extractService` — "from <name>" first, then
"in <name>-service". -/
def extractService (input : String) : String :=
  match FindStringSubmatch serviceFromPattern input with
  | some caps => capStr caps 1
  | none =>
    match FindStringSubmatch serviceInPattern input with
    | some caps => capStr caps 1
    | none => ""

/-- heuristic.go: `extractOperation` — HTTP method + path. -/
def extractOperation (input : String) : String :=
  match FindStringSubmatch operationPattern input with
  | some caps => capStr caps 1 ++ " " ++ capStr caps 2
  | none => ""

/-- heuristic.go: `extractHTTPStatusCode` — group 1 ("status NNN" forms) has
priority over group 2 ("NNN error(s)"). -/
def extractHTTPStatusCode (input : String) : String :=
  match FindStringSubmatch httpStatusPattern input with
  | some caps =>
    if capStr caps 1 != "" then capStr caps 1
    else if capStr caps 2 != "" then capStr caps 2
    else ""
  | none => ""

/-- heuristic.go: `extractTags` — Go's `nil` map (no tag extracted) is
`none`; a populated map is an association list. -/
def extractTags (input : String) : Option (List (String × String)) :=
  let code := extractHTTPStatusCode input
  let tags := if code != "" then [("http.status_code", code)] else []
  if tags.length = 0 then none else some tags

/-- heuristic.go: `normalizeDurationUnit` — full unit words become Go
duration suffixes; anything else passes through unchanged. -/
def normalizeDurationUnit (unit : String) : String :=
  if toLowerStr unit = "milliseconds" then "ms"
  else if toLowerStr unit = "seconds" then "s"
  else if toLowerStr unit = "minutes" then "m"
  else if toLowerStr unit = "hours" then "h"
  else unit

/-- heuristic.go: `extractDuration` — number capture (trimmed) followed by
the normalized unit capture. -/
def extractDuration (input : String) (pattern : Re) : String :=
  match FindStringSubmatch pattern input with
  | some caps =>
    let unit := normalizeDurationUnit (capStr caps 2)
    trimSpace (capStr caps 1) ++ unit
  | none => ""

/-! ## SearchParams (params.go) -/

/-- params.go: `SearchParams` — the restricted flat schema. Go's `nil`
versus empty `Tags` map distinction is kept via `Option`. -/
structure SearchParams where
  Service : String
  Operation : String
  Tags : Option (List (String × String))
  MinDuration : String
  MaxDuration : String
  SearchDepth : Int
deriving DecidableEq

/-- The zero value of `SearchParams`. -/
def SearchParams.zero : SearchParams :=
  { Service := "", Operation := "", Tags := none,
    MinDuration := "", MaxDuration := "", SearchDepth := 0 }

/-- `context.Context` as far as this package observes it: a cancellation
flag. The heuristic extractor ignores it entirely
(`Extract(_ context.Context, input string)`). -/
structure Context where
  cancelled : Bool
deriving DecidableEq

/-- heuristic.go: `HeuristicExtractor.Extract` — each field extracted
independently; missing fields remain at their zero values; the error result
is always `nil` (`none`). -/
def HeuristicExtractor.Extract (_ctx : Context) (input : String) :
    SearchParams × Option String :=
  ({ Service := extractService input,
     Operation := extractOperation input,
     Tags := extractTags input,
     MinDuration := extractDuration input minDurationPattern,
     MaxDuration := extractDuration input maxDurationPattern,
     SearchDepth := 0 }, none)

/-! ## JSON decoding into SearchParams (params.go + the LLM extractor file)

`json.Unmarshal` into the `SearchParams` struct is embedded over parsed
JSON values: an object's fields are processed in order of appearance, later
duplicates overwriting earlier ones; a key is matched case-insensitively
against the struct's json tags; any key matching no tag is skipped — this
is the safety firewall. A value of the wrong type for a matched field is a
decoding error; JSON `null` leaves the field untouched. -/

/-- A parsed JSON value. Numbers are represented exactly as rationals. -/
inductive JsonValue where
  | null : JsonValue
  | bool (b : Bool) : JsonValue
  | num (q : Rat) : JsonValue
  | str (s : String) : JsonValue
  | arr (elems : List JsonValue) : JsonValue
  | obj (fields : List (String × JsonValue)) : JsonValue

/-- Whether a JSON object key matches one of the `SearchParams` json tags
(`service`, `operation`, `tags`, `minDuration`, `maxDuration`,
`searchDepth`), case-insensitively as Go's decoder does. -/
def knownKey (k : String) : Bool :=
  toLowerStr k = "service" || toLowerStr k = "operation" || toLowerStr k = "tags" ||
  toLowerStr k = "minduration" || toLowerStr k = "maxduration" ||
  toLowerStr k = "searchdepth"

/-- Decoding a JSON object into `map[string]string`: every value must be a
string; fields are written into the map in order, later duplicates
overwriting. -/
def decodeStringMap : List (String × JsonValue) → List (String × String) →
    Except String (List (String × String))
  | [], m => .ok m
  | (k, v) :: rest, m =>
    match v with
    | .str s =>
      let m' := if m.any (fun p => p.1 = k)
        then m.map (fun p => if p.1 = k then (k, s) else p)
        else m ++ [(k, s)]
      decodeStringMap rest m'
    | .null => decodeStringMap rest m
    | _ => .error "cannot unmarshal into map field of string values"

/-- Processing of one object field by `json.Unmarshal` into `SearchParams`:
a known key sets its field (string fields need strings, `searchDepth` needs
an integral number, `tags` needs a string-valued object; `null` is a no-op);
an unknown key is silently dropped. -/
def setField (p : SearchParams) (k : String) (v : JsonValue) :
    Except String SearchParams :=
  if toLowerStr k = "service" then
    match v with
    | .str s => .ok { p with Service := s }
    | .null => .ok p
    | _ => .error "cannot unmarshal into field service"
  else if toLowerStr k = "operation" then
    match v with
    | .str s => .ok { p with Operation := s }
    | .null => .ok p
    | _ => .error "cannot unmarshal into field operation"
  else if toLowerStr k = "tags" then
    match v with
    | .obj fs =>
      match decodeStringMap fs [] with
      | .ok m => .ok { p with Tags := some m }
      | .error e => .error e
    | .null => .ok p
    | _ => .error "cannot unmarshal into field tags"
  else if toLowerStr k = "minduration" then
    match v with
    | .str s => .ok { p with MinDuration := s }
    | .null => .ok p
    | _ => .error "cannot unmarshal into field minDuration"
  else if toLowerStr k = "maxduration" then
    match v with
    | .str s => .ok { p with MaxDuration := s }
    | .null => .ok p
    | _ => .error "cannot unmarshal into field maxDuration"
  else if toLowerStr k = "searchdepth" then
    match v with
    | .num q => if q.den = 1 then .ok { p with SearchDepth := q.num }
        else .error "cannot unmarshal fractional number into field searchDepth"
    | .null => .ok p
    | _ => .error "cannot unmarshal into field searchDepth"
  else
    .ok p

/-- `json.Unmarshal(data, &params)` with `params` a zero `SearchParams`:
the top-level value must be an object (or `null`); its fields are processed
in order. -/
def unmarshalSearchParams (v : JsonValue) : Except String SearchParams :=
  match v with
  | .obj fields => fields.foldlM (fun p kv => setField p kv.1 kv.2) SearchParams.zero
  | .null => .ok SearchParams.zero
  | _ => .error "cannot unmarshal into SearchParams"

/-- Outcome of `model.GenerateContent` as observed by `LLMExtractor.Extract`:
a provider error, or a list of choices whose textual content is represented
by its parsed JSON value — `none` standing for content that is not valid
JSON (the `json.Unmarshal` syntax-error branch). -/
inductive LLMGenOutcome where
  | failure (e : String)
  | success (choices : List (Option JsonValue))

/-- LLM extractor file: `LLMExtractor.Extract` — provider errors and empty
responses fail with distinguishable errors; otherwise the first choice's
content is deserialized strictly into `SearchParams`, `json.Unmarshal`
acting as the safety firewall. -/
def LLMExtractor.Extract (outcome : LLMGenOutcome) : Except String SearchParams :=
  match outcome with
  | .failure e => .error ("llm generation failed: " ++ e)
  | .success [] => .error "llm returned empty response"
  | .success (completion :: _) =>
    match completion with
    | none => .error "llm returned invalid JSON"
    | some v =>
      match unmarshalSearchParams v with
      | .error e => .error ("llm returned invalid JSON: " ++ e)
      | .ok params => .ok params

/-! ## Helper lemmas -/

/-- A key matching none of the `SearchParams` json tags is skipped by the
decoder without touching the value. -/
theorem setField_unknown (p : SearchParams) (k : String) (v : JsonValue)
    (h : knownKey k = false) : setField p k v = .ok p := by
  unfold knownKey at h
  simp only [Bool.or_eq_false_iff, decide_eq_false_iff_not] at h
  obtain ⟨⟨⟨⟨⟨h1, h2⟩, h3⟩, h4⟩, h5⟩, h6⟩ := h
  unfold setField
  simp [h1, h2, h3, h4, h5, h6]

/-- Folding the field decoder over an object is unchanged by first dropping
every unknown field. -/
theorem foldlM_setField_filter (fields : List (String × JsonValue)) (p : SearchParams) :
    fields.foldlM (fun p kv => setField p kv.1 kv.2) p =
    (fields.filter (fun kv => knownKey kv.1)).foldlM (fun p kv => setField p kv.1 kv.2) p := by
  induction fields generalizing p with
  | nil => rfl
  | cons kv rest ih =>
    by_cases h : knownKey kv.1
    · simp only [List.foldlM_cons, List.filter_cons, h, if_true]
      cases hsf : setField p kv.1 kv.2 with
      | error e => rfl
      | ok p' => exact ih p'
    · have h' : knownKey kv.1 = false := by simpa using h
      simp only [List.foldlM_cons, List.filter_cons, h', Bool.false_eq_true, if_false,
        setField_unknown p kv.1 kv.2 h']
      exact ih p

/-- A message with the "system" role. -/
def isSystem (m : Message) : Bool := m.Role == RoleSystem

/-- Eviction removes no system message: the system-role sublist is
untouched. -/
theorem evict_filter_system (msgs : List Message) :
    (evictOldestNonSystem msgs).filter isSystem = msgs.filter isSystem := by
  induction msgs with
  | nil => rfl
  | cons m rest ih =>
    unfold evictOldestNonSystem
    by_cases h : m.Role = RoleSystem
    · simp [h, List.filter_cons, isSystem, ih]
    · simp [h, List.filter_cons, isSystem]

/-- When some non-system message is present, eviction removes exactly one
message. -/
theorem evict_length (msgs : List Message)
    (h : ∃ m ∈ msgs, ¬ m.Role = RoleSystem) :
    (evictOldestNonSystem msgs).length + 1 = msgs.length := by
  induction msgs with
  | nil => simp at h
  | cons m rest ih =>
    by_cases hm : m.Role = RoleSystem
    · have hrest : ∃ x ∈ rest, ¬ x.Role = RoleSystem := by
        obtain ⟨x, hx, hxr⟩ := h
        rcases List.mem_cons.mp hx with rfl | hx'
        · exact absurd hm hxr
        · exact ⟨x, hx', hxr⟩
      have hih := ih hrest
      simp only [evictOldestNonSystem, if_pos hm, List.length_cons]
      omega
    · simp [evictOldestNonSystem, if_neg hm]

/-- A list with fewer system messages than elements contains a non-system
message. -/
theorem exists_nonsystem_of_filter_lt (msgs : List Message)
    (h : (msgs.filter isSystem).length < msgs.length) :
    ∃ m ∈ msgs, ¬ m.Role = RoleSystem := by
  by_contra hall
  push_neg at hall
  have heq : msgs.filter isSystem = msgs :=
    List.filter_eq_self.mpr (fun a ha => by
      simpa [isSystem] using hall a ha)
  rw [heq] at h
  exact lt_irrefl _ h

/-- One `AddMessage` step keeps the count within the cap, provided fewer
than the cap of the current messages are system-role. -/
theorem addMessageToList_le_cap (msgs : List Message) (m : Message)
    (hlen : msgs.length ≤ maxMessagesPerSession)
    (hsys : (msgs.filter isSystem).length < maxMessagesPerSession) :
    (addMessageToList msgs m).length ≤ maxMessagesPerSession := by
  unfold addMessageToList
  by_cases hc : msgs.length ≥ maxMessagesPerSession
  · have heq : msgs.length = maxMessagesPerSession := le_antisymm hlen hc
    have hex : ∃ x ∈ msgs, ¬ x.Role = RoleSystem :=
      exists_nonsystem_of_filter_lt msgs (by omega)
    have hev := evict_length msgs hex
    simp only [if_pos hc, List.length_append, List.length_cons, List.length_nil]
    omega
  · simp only [if_neg hc, List.length_append, List.length_cons, List.length_nil]
    omega

/-- One `AddMessage` step appends the new message to the system-role sublist
exactly when the new message is system-role, never losing a system
message. -/
theorem addMessageToList_filter_system (msgs : List Message) (m : Message) :
    (addMessageToList msgs m).filter isSystem =
      msgs.filter isSystem ++ (if isSystem m then [m] else []) := by
  unfold addMessageToList
  by_cases hc : msgs.length ≥ maxMessagesPerSession <;>
    by_cases hm : isSystem m <;>
      simp [hc, hm, List.filter_append, evict_filter_system]

/-- Invariant of a run of `AddMessage` steps: the count stays within the cap
as long as the system messages present plus those still to be added stay
below the cap. -/
theorem foldl_addMessageToList_le_cap (adds : List Message) (msgs : List Message)
    (hlen : msgs.length ≤ maxMessagesPerSession)
    (hsys : (msgs.filter isSystem).length + (adds.filter isSystem).length <
      maxMessagesPerSession) :
    (adds.foldl addMessageToList msgs).length ≤ maxMessagesPerSession := by
  induction adds generalizing msgs with
  | nil => simpa using hlen
  | cons m rest ih =>
    simp only [List.foldl_cons]
    have hstep := addMessageToList_le_cap msgs m hlen (by
      have : 0 ≤ ((m :: rest).filter isSystem).length := Nat.zero_le _
      omega)
    apply ih _ hstep
    rw [addMessageToList_filter_system]
    cases hm : isSystem m <;>
      simp [hm, List.filter_cons] at hsys ⊢ <;>
      omega

/-- The system-role messages of the final list are exactly the system-role
messages added, in order. -/
theorem foldl_addMessageToList_filter_system (adds msgs : List Message) :
    (adds.foldl addMessageToList msgs).filter isSystem =
      msgs.filter isSystem ++ adds.filter isSystem := by
  induction adds generalizing msgs with
  | nil => simp
  | cons m rest ih =>
    simp only [List.foldl_cons, ih, addMessageToList_filter_system, List.filter_cons]
    by_cases hm : isSystem m <;> simp [hm]

/-- Looking up the very key just erased yields nothing. -/
theorem lookup_erase_self (key : String) (l : List (String × Session)) :
    (eraseSession key l).lookup key = none := by
  induction l with
  | nil => rfl
  | cons p rest ih =>
    by_cases hp : p.1 = key
    · simpa [eraseSession, List.filter_cons, hp] using ih
    · have hb : (p.1 != key) = true := by simpa using hp
      have hk : (key == p.1) = false := beq_eq_false_iff_ne.mpr (Ne.symm hp)
      simp only [eraseSession, List.filter_cons, hb, if_true]
      simp only [List.lookup, hk]
      exact ih

/-- Erasing one key leaves every other key's binding unchanged. -/
theorem lookup_erase_ne (key id : String) (h : id ≠ key)
    (l : List (String × Session)) :
    (eraseSession key l).lookup id = l.lookup id := by
  induction l with
  | nil => rfl
  | cons p rest ih =>
    by_cases hp : p.1 = key
    · have hb : (p.1 != key) = false := by simpa using hp
      have hk : (id == p.1) = false := beq_eq_false_iff_ne.mpr (hp ▸ h)
      simp only [eraseSession, List.filter_cons, hb, if_false, Bool.false_eq_true]
      simp only [List.lookup, hk]
      exact ih
    · have hb : (p.1 != key) = true := by simpa using hp
      simp only [eraseSession, List.filter_cons, hb, if_true]
      simp only [List.lookup]
      cases hk : id == p.1 with
      | true => rfl
      | false => exact ih

/-- The head binding wins the lookup. -/
theorem lookup_cons_self (id : String) (s : Session) (l : List (String × Session)) :
    ((id, s) :: l).lookup id = some s := by
  simp [List.lookup]

/-- `Get` never adds a binding: any id reachable after a `Get` was reachable
before it (with the same session). -/
theorem get_snd_lookup (sm : SessionManager) (now : Int) (id id' : String)
    (h : (((sm.Get now id).2).sessions.lookup id').isSome) :
    (sm.sessions.lookup id').isSome := by
  unfold SessionManager.Get at h
  cases hl : sm.sessions.lookup id with
  | none => simp only [hl] at h; exact h
  | some s =>
    simp only [hl] at h
    by_cases hc : now - s.UpdatedAt > sm.ttl
    · rw [if_pos hc] at h
      have h2 : ((eraseSession id sm.sessions).lookup id').isSome := h
      by_cases hid : id' = id
      · subst hid
        rw [lookup_erase_self] at h2
        simp at h2
      · rw [lookup_erase_ne id id' hid] at h2
        exact h2
    · rw [if_neg hc] at h; exact h

/-- Erasing a key twice equals erasing it once. -/
theorem erase_erase (k : String) (l : List (String × Session)) :
    eraseSession k (eraseSession k l) = eraseSession k l := by
  unfold eraseSession
  rw [List.filter_filter]
  simp

/-- Erasing a key drops a head binding with that key. -/
theorem erase_cons_self (k : String) (s : Session) (l : List (String × Session)) :
    eraseSession k ((k, s) :: l) = eraseSession k l := by
  simp [eraseSession, List.filter_cons]

/-- Below the cap, `AddMessage` is a plain append. -/
theorem addMessageToList_lt (msgs : List Message) (m : Message)
    (h : msgs.length < maxMessagesPerSession) :
    addMessageToList msgs m = msgs ++ [m] := by
  unfold addMessageToList
  rw [if_neg (by omega)]

/-- A found, unexpired session: `Get` returns it and changes nothing. -/
theorem get_found (sm : SessionManager) (now : Int) (id : String) (s : Session)
    (hs : sm.sessions.lookup id = some s) (hc : ¬ (now - s.UpdatedAt > sm.ttl)) :
    sm.Get now id = (some s, sm) := by
  unfold SessionManager.Get
  simp only [hs]
  rw [if_neg hc]

/-- A found, unexpired session: `AddMessage` succeeds and stores the
evict-and-append update with a refreshed last-active instant. -/
theorem addMessage_found (sm : SessionManager) (now : Int) (id : String) (s : Session)
    (role content : String) (hs : sm.sessions.lookup id = some s)
    (hc : ¬ (now - s.UpdatedAt > sm.ttl)) :
    sm.AddMessage now id role content =
      (true, { sm with sessions :=
        (id, { s with
          Messages := addMessageToList s.Messages { Role := role, Content := content },
          UpdatedAt := now }) :: eraseSession id sm.sessions }) := by
  unfold SessionManager.AddMessage
  simp only [hs]
  rw [if_neg hc]

/-- When `Get` resolves a session, the store is untouched. -/
theorem get_some_snd (sm : SessionManager) (now : Int) (id : String) (s : Session)
    (h : (sm.Get now id).1 = some s) : sm.Get now id = (some s, sm) := by
  unfold SessionManager.Get at h ⊢
  cases hl : sm.sessions.lookup id with
  | none => simp [hl] at h
  | some s0 =>
    simp only [hl] at h ⊢
    by_cases hc : now - s0.UpdatedAt > sm.ttl
    · rw [if_pos hc] at h; simp at h
    · rw [if_neg hc] at h ⊢
      simp only at h
      rw [Option.some_inj] at h
      rw [h]

/-- `Get` never rebinds an id: a binding present after a `Get` was present,
with the same session, before it. -/
theorem get_snd_lookup_eq (sm : SessionManager) (now : Int) (id id' : String)
    (s' : Session) (h : (((sm.Get now id).2).sessions.lookup id') = some s') :
    sm.sessions.lookup id' = some s' := by
  unfold SessionManager.Get at h
  cases hl : sm.sessions.lookup id with
  | none => simp only [hl] at h; exact h
  | some s =>
    simp only [hl] at h
    by_cases hc : now - s.UpdatedAt > sm.ttl
    · rw [if_pos hc] at h
      have h2 : ((eraseSession id sm.sessions).lookup id') = some s' := h
      by_cases hid : id' = id
      · subst hid
        rw [lookup_erase_self] at h2
        exact absurd h2 (by simp)
      · rw [lookup_erase_ne id id' hid] at h2
        exact h2
    · rw [if_neg hc] at h; exact h

/-- When the model layer always fails, the shared `analyze` tail returns
the error with the store untouched. -/
theorem analyzeResolved_model_error (model : LLMModel) (sm : SessionManager)
    (now : Int) (session : Session) (userPrompt : String)
    (hm : ∀ msgs, ∃ e, Analyzer.callModel model msgs = Except.error e) :
    ∃ e, Analyzer.analyzeResolved model sm now session userPrompt =
      ({ response := "", sid := session.ID, err := some e }, sm) := by
  obtain ⟨e, he⟩ := hm (Analyzer.buildMessagesFromSession session ++
    [{ role := .human, content := userPrompt }])
  refine ⟨e, ?_⟩
  simp only [Analyzer.analyzeResolved, he]

/-- A head binding with a different key does not affect a lookup. -/
theorem lookup_cons_ne (k id : String) (h : id ≠ k) (s : Session)
    (l : List (String × Session)) :
    ((k, s) :: l).lookup id = l.lookup id := by
  simp [List.lookup, beq_eq_false_iff_ne.mpr h]

/-- The stateless branch of `analyze` (empty session id, fresh session not
instantly expired): create the session, seed it with the system prompt, and
continue with the seeded session against the updated store. -/
theorem analyze_fresh_resolved (model : LLMModel) (sm : SessionManager) (now : Int)
    (freshId sysP userP : String) (h0 : ¬ (now - now > sm.ttl)) :
    Analyzer.analyze model sm now freshId sysP userP "" =
      Analyzer.analyzeResolved model
        { sm with sessions :=
            (freshId, { ID := freshId,
                        Messages := [{ Role := RoleSystem, Content := sysP }],
                        CreatedAt := now, UpdatedAt := now }) ::
            eraseSession freshId sm.sessions }
        now
        { ID := freshId, Messages := [{ Role := RoleSystem, Content := sysP }],
          CreatedAt := now, UpdatedAt := now }
        userP := by
  unfold Analyzer.analyze
  simp only [bne_self_eq_false, Bool.false_eq_true, if_false, SessionManager.Create]
  rw [addMessage_found
    { sm with sessions :=
        (freshId, { ID := freshId, Messages := [], CreatedAt := now, UpdatedAt := now }) ::
        eraseSession freshId sm.sessions }
    now freshId
    { ID := freshId, Messages := [], CreatedAt := now, UpdatedAt := now }
    RoleSystem sysP (lookup_cons_self freshId _ _) h0]
  simp only [erase_cons_self, erase_erase,
    addMessageToList_lt [] _ (by simp [maxMessagesPerSession]), List.nil_append,
    lookup_cons_self, Option.getD_some]

/-- The stateless branch of `analyze` when the fresh session is instantly
expired (negative TTL): the seeding write lazily removes it, and the
pipeline continues with the unstored created session. -/
theorem analyze_fresh_expired (model : LLMModel) (sm : SessionManager) (now : Int)
    (freshId sysP userP : String) (h0 : now - now > sm.ttl) :
    Analyzer.analyze model sm now freshId sysP userP "" =
      Analyzer.analyzeResolved model
        { sm with sessions := eraseSession freshId sm.sessions } now
        { ID := freshId, Messages := [], CreatedAt := now, UpdatedAt := now }
        userP := by
  unfold Analyzer.analyze
  simp only [bne_self_eq_false, Bool.false_eq_true, if_false, SessionManager.Create]
  unfold SessionManager.AddMessage
  simp only [lookup_cons_self]
  rw [if_pos h0]
  simp only [erase_cons_self, erase_erase, lookup_erase_self, Option.getD_none]

/-- Hex encoding yields two characters per byte. -/
theorem generateSessionID_length (bytes : List Nat) :
    (generateSessionID bytes).length = 2 * bytes.length := by
  show ((bytes.map byteToHex).flatten).length = 2 * bytes.length
  induction bytes with
  | nil => rfl
  | cons b rest ih =>
    simp only [List.map_cons, List.flatten_cons, List.length_append, ih, byteToHex,
      List.length_cons, List.length_nil]
    omega

/-- Every position of the hex table holds a hex character. -/
theorem getD_hextable_mem (n : Nat) : hextable.getD n '0' ∈ hextable := by
  by_cases h : n < hextable.length
  · rw [List.getD_eq_getElem hextable '0' h]
    exact List.getElem_mem h
  · rw [List.getD_eq_default hextable '0' (by omega)]
    decide

/-- Every character of a generated session id is a hex character. -/
theorem generateSessionID_chars (bytes : List Nat) :
    ∀ c ∈ (generateSessionID bytes).data, c ∈ hextable := by
  intro c hc
  have hc2 : c ∈ (bytes.map byteToHex).flatten := hc
  rw [List.mem_flatten] at hc2
  obtain ⟨chunk, hchunk, hcin⟩ := hc2
  rw [List.mem_map] at hchunk
  obtain ⟨b, _, rfl⟩ := hchunk
  simp only [byteToHex, List.mem_cons, List.not_mem_nil, or_false] at hcin
  rcases hcin with rfl | rfl
  · exact getD_hextable_mem (b / 16)
  · exact getD_hextable_mem (b % 16)

/-- The shared `analyze` tail on a successful model call: the user turn and
the response are appended in order and the last-active instant refreshed. -/
theorem analyzeResolved_success (model : LLMModel) (sm : SessionManager) (now : Int)
    (s : Session) (userP r : String)
    (hmr : Analyzer.callModel model (Analyzer.buildMessagesFromSession s ++
      [{ role := .human, content := userP }]) = .ok r)
    (hs : sm.sessions.lookup s.ID = some s)
    (hc : ¬ (now - s.UpdatedAt > sm.ttl))
    (hc2 : ¬ ((now : Int) - now > sm.ttl))
    (hlen1 : s.Messages.length < maxMessagesPerSession)
    (hlen2 : s.Messages.length + 1 < maxMessagesPerSession) :
    Analyzer.analyzeResolved model sm now s userP =
      ({ response := r, sid := s.ID, err := none },
       { sm with sessions :=
           (s.ID, { s with
             Messages := s.Messages ++
               [{ Role := RoleUser, Content := userP },
                { Role := RoleAssistant, Content := r }],
             UpdatedAt := now }) :: eraseSession s.ID sm.sessions }) := by
  have hadd1 := addMessage_found sm now s.ID s RoleUser userP hs hc
  rw [addMessageToList_lt s.Messages _ hlen1] at hadd1
  have hadd2 := addMessage_found
    { sm with sessions :=
        (s.ID, { s with Messages := s.Messages ++ [{ Role := RoleUser, Content := userP }],
                        UpdatedAt := now }) :: eraseSession s.ID sm.sessions }
    now s.ID
    { s with Messages := s.Messages ++ [{ Role := RoleUser, Content := userP }],
             UpdatedAt := now }
    RoleAssistant r (lookup_cons_self _ _ _) hc2
  rw [addMessageToList_lt _ _ (by
    simp only [List.length_append, List.length_cons, List.length_nil]
    omega)] at hadd2
  unfold Analyzer.analyzeResolved
  simp only [hmr, hadd1, hadd2, erase_cons_self, erase_erase, List.append_assoc,
    List.cons_append, List.nil_append]

/-- The stateless analyze path on a successful model call: a fresh session
seeded with the system prompt, then the user turn and the response. -/
theorem analyze_fresh_success (model : LLMModel) (sm : SessionManager) (now : Int)
    (freshId sysP userP r : String) (h0 : ¬ ((now : Int) - now > sm.ttl))
    (hmr : Analyzer.callModel model
      [{ role := .system, content := sysP }, { role := .human, content := userP }] =
      .ok r) :
    Analyzer.analyze model sm now freshId sysP userP "" =
      ({ response := r, sid := freshId, err := none },
       { sm with sessions :=
           (freshId,
             { ID := freshId,
               Messages := [{ Role := RoleSystem, Content := sysP },
                            { Role := RoleUser, Content := userP },
                            { Role := RoleAssistant, Content := r }],
               CreatedAt := now, UpdatedAt := now }) ::
           eraseSession freshId sm.sessions }) := by
  rw [analyze_fresh_resolved model sm now freshId sysP userP h0]
  have hres := analyzeResolved_success model
    { sm with sessions :=
        (freshId, { ID := freshId,
                    Messages := [{ Role := RoleSystem, Content := sysP }],
                    CreatedAt := now, UpdatedAt := now }) ::
        eraseSession freshId sm.sessions }
    now
    { ID := freshId, Messages := [{ Role := RoleSystem, Content := sysP }],
      CreatedAt := now, UpdatedAt := now }
    userP r
    (by simpa [Analyzer.buildMessagesFromSession, RoleSystem, RoleAssistant] using hmr)
    (lookup_cons_self _ _ _) h0 h0 (by simp [maxMessagesPerSession])
    (by simp [maxMessagesPerSession])
  rw [hres]
  simp only [erase_cons_self, erase_erase, List.cons_append, List.nil_append]

/-- `FollowUp` on a resolvable session and a successful model call: the
question and the answer are appended in order. -/
theorem followUp_success (model : LLMModel) (sm : SessionManager) (now : Int)
    (q sid r : String) (s : Session)
    (hne : (sid == "") = false) (hs : sm.sessions.lookup sid = some s)
    (hc : ¬ (now - s.UpdatedAt > sm.ttl)) (hc2 : ¬ ((now : Int) - now > sm.ttl))
    (hmr : Analyzer.callModel model (Analyzer.buildMessagesFromSession s ++
      [{ role := .human, content := q }]) = .ok r)
    (hlen1 : s.Messages.length < maxMessagesPerSession)
    (hlen2 : s.Messages.length + 1 < maxMessagesPerSession) :
    Analyzer.FollowUp model sm now q sid =
      (.ok r,
       { sm with sessions :=
           (sid, { s with
             Messages := s.Messages ++
               [{ Role := RoleUser, Content := q },
                { Role := RoleAssistant, Content := r }],
             UpdatedAt := now }) :: eraseSession sid sm.sessions }) := by
  have hadd1 := addMessage_found sm now sid s RoleUser q hs hc
  rw [addMessageToList_lt s.Messages _ hlen1] at hadd1
  have hadd2 := addMessage_found
    { sm with sessions :=
        (sid, { s with Messages := s.Messages ++ [{ Role := RoleUser, Content := q }],
                       UpdatedAt := now }) :: eraseSession sid sm.sessions }
    now sid
    { s with Messages := s.Messages ++ [{ Role := RoleUser, Content := q }],
             UpdatedAt := now }
    RoleAssistant r (lookup_cons_self _ _ _) hc2
  rw [addMessageToList_lt _ _ (by
    simp only [List.length_append, List.length_cons, List.length_nil]
    omega)] at hadd2
  unfold Analyzer.FollowUp
  rw [hne]
  simp only [Bool.false_eq_true, if_false, get_found sm now sid s hs hc, hmr,
    hadd1, hadd2, erase_cons_self, erase_erase, List.append_assoc,
    List.cons_append, List.nil_append]

/-! ## Claim theorems -/

/-- C1: decoding a structured payload into SearchParams is a safety
firewall — dropping the unknown fields of the payload does not change the
decoding result, and `LLMExtractor.Extract` on the model output
`service=frontend, confidence=0.99, reasoning=...` returns SearchParams
with Service "frontend" and every other field at its zero value. -/
theorem C1_safety_firewall :
    (∀ fields : List (String × JsonValue),
      unmarshalSearchParams (.obj fields) =
        unmarshalSearchParams (.obj (fields.filter (fun kv => knownKey kv.1)))) ∧
    LLMExtractor.Extract (.success [some (.obj
      [("service", .str "frontend"), ("confidence", .num (99 / 100)),
       ("reasoning", .str "...")])]) =
      .ok { Service := "frontend", Operation := "", Tags := none,
            MinDuration := "", MaxDuration := "", SearchDepth := 0 } := by
  refine ⟨fun fields => ?_, by rfl⟩
  unfold unmarshalSearchParams
  exact foldlM_setField_filter fields SearchParams.zero

set_option maxRecDepth 20000 in
/-- C2 counterexample: fifty-one `SessionManager.AddMessage` calls with the
"system" role on one fresh session leave it with 51 stored messages, above
the configured cap of 50 — eviction finds no non-system message to remove,
and the append happens regardless. -/
theorem C2_counterexample :
    ((((List.range 51).foldl
        (fun sm _ => (sm.AddMessage 0 "a" RoleSystem "p").2)
        (((NewSessionManager 1).Create 0 "a").2)).sessions.lookup "a").map
      (fun s => s.Messages.length)) = some 51 ∧
    51 > maxMessagesPerSession := by
  constructor
  · decide
  · decide

/-- C2 (amended): for every sequence of AddMessage calls on one session,
the message count never exceeds the cap PROVIDED fewer than the cap of the
added messages are system-role (without that proviso the bound fails, since
eviction refuses to remove system messages); and the system-role messages
of the final list are exactly the system-role messages added, in order — a
system message, once added, is never evicted. -/
theorem C2_eviction_bound (adds : List Message)
    (hsys : (adds.filter isSystem).length < maxMessagesPerSession) :
    ((adds.foldl addMessageToList []).length ≤ maxMessagesPerSession) ∧
    ((adds.foldl addMessageToList []).filter isSystem = adds.filter isSystem) := by
  constructor
  · exact foldl_addMessageToList_le_cap adds [] (by simp) (by simpa using hsys)
  · simpa using foldl_addMessageToList_filter_system adds []

/-- Witness for the amended C2 on a short concrete sequence containing one
system message. -/
theorem C2_eviction_bound_witness :
    (([{ Role := "system", Content := "sp" }, { Role := "user", Content := "q" },
       { Role := "assistant", Content := "a" }].filter isSystem).length <
      maxMessagesPerSession) ∧
    ((([{ Role := "system", Content := "sp" }, { Role := "user", Content := "q" },
        { Role := "assistant", Content := "a" }] : List Message).foldl
          addMessageToList []).length ≤ maxMessagesPerSession ∧
     (([{ Role := "system", Content := "sp" }, { Role := "user", Content := "q" },
        { Role := "assistant", Content := "a" }] : List Message).foldl
          addMessageToList []).filter isSystem =
       [{ Role := "system", Content := "sp" }, { Role := "user", Content := "q" },
        { Role := "assistant", Content := "a" }].filter isSystem) :=
  ⟨by decide,
   C2_eviction_bound
     [{ Role := "system", Content := "sp" }, { Role := "user", Content := "q" },
      { Role := "assistant", Content := "a" }] (by decide)⟩

/-- C5: on "Show me 500 errors from payment-service taking more than 2
seconds" the heuristic extractor returns Service "payment-service",
Tags {http.status_code: 500}, MinDuration "2s", all other fields zero,
and a nil error. -/
theorem C5_heuristic_scenario :
    HeuristicExtractor.Extract { cancelled := false }
      "Show me 500 errors from payment-service taking more than 2 seconds" =
    ({ Service := "payment-service", Operation := "",
       Tags := some [("http.status_code", "500")], MinDuration := "2s",
       MaxDuration := "", SearchDepth := 0 }, none) := by decide

/-- C7: the heuristic extractor is deterministic — its result is a function
of the input text alone; in particular the context (the only other input)
never influences the output. -/
theorem C7_heuristic_deterministic (ctx1 ctx2 : Context) (x : String) :
    HeuristicExtractor.Extract ctx1 x = HeuristicExtractor.Extract ctx2 x := rfl

/-- C9: NewSessionManager substitutes the 30-minute default TTL for every
argument less than or equal to zero, and keeps every positive argument
unchanged. -/
theorem C9_default_ttl (ttl : Int) :
    (ttl ≤ 0 → (NewSessionManager ttl).ttl = defaultSessionTTL) ∧
    (0 < ttl → (NewSessionManager ttl).ttl = ttl) := by
  refine ⟨fun h => ?_, fun h => ?_⟩
  · simp [NewSessionManager, if_pos h]
  · simp [NewSessionManager, if_neg (not_le.mpr h)]

/-- Witness for C9 at TTL values -5 (default substituted) and 7 (kept). -/
theorem C9_default_ttl_witness :
    (NewSessionManager (-5)).ttl = defaultSessionTTL ∧ (NewSessionManager 7).ttl = 7 :=
  ⟨(C9_default_ttl (-5)).1 (by decide), (C9_default_ttl 7).2 (by decide)⟩

/-- C10: HeuristicExtractor.Extract never fails — for every input string
and context the error result is nil — and when the pattern(s) of a field
find no match, that field is left at its zero value: Service "" when both
service patterns miss, Operation "" when the operation pattern misses, Tags
Go `nil` (`none`, not an empty map) when no status code is extracted, and
the duration fields "" when their patterns miss; SearchDepth is never set
at all. -/
theorem C10_extract_total (ctx : Context) (input : String) :
    (HeuristicExtractor.Extract ctx input).2 = none ∧
    (HeuristicExtractor.Extract ctx input).1.SearchDepth = 0 ∧
    (FindStringSubmatch serviceFromPattern input = none →
      FindStringSubmatch serviceInPattern input = none →
      (HeuristicExtractor.Extract ctx input).1.Service = "") ∧
    (FindStringSubmatch operationPattern input = none →
      (HeuristicExtractor.Extract ctx input).1.Operation = "") ∧
    (extractHTTPStatusCode input = "" →
      (HeuristicExtractor.Extract ctx input).1.Tags = none) ∧
    (FindStringSubmatch minDurationPattern input = none →
      (HeuristicExtractor.Extract ctx input).1.MinDuration = "") ∧
    (FindStringSubmatch maxDurationPattern input = none →
      (HeuristicExtractor.Extract ctx input).1.MaxDuration = "") := by
  refine ⟨rfl, rfl, fun h1 h2 => ?_, fun h => ?_, fun h => ?_, fun h => ?_,
    fun h => ?_⟩
  · show extractService input = ""
    simp [extractService, h1, h2]
  · show extractOperation input = ""
    simp [extractOperation, h]
  · show extractTags input = none
    simp [extractTags, h]
  · show extractDuration input minDurationPattern = ""
    simp [extractDuration, h]
  · show extractDuration input maxDurationPattern = ""
    simp [extractDuration, h]

/-- C3: TTL correctness measured from the last successful write — a session
whose last-active instant is `s.UpdatedAt` is returned unchanged by `Get`
strictly before `UpdatedAt + ttl` and is gone (not found and removed)
strictly after it; `Create` stamps the stored session's last-active with the
creation instant, and a successful `AddMessage` refreshes it to the write
instant. -/
theorem C3_ttl_correctness (sm : SessionManager) (id : String) (s : Session)
    (now : Int) (hs : sm.sessions.lookup id = some s) :
    (now < s.UpdatedAt + sm.ttl → sm.Get now id = (some s, sm)) ∧
    (now > s.UpdatedAt + sm.ttl →
      (sm.Get now id).1 = none ∧ ((sm.Get now id).2).sessions.lookup id = none) ∧
    (∀ now' fid, ((sm.Create now' fid).1).UpdatedAt = now' ∧
      ((((sm.Create now' fid).2).sessions.lookup fid).map Session.UpdatedAt) = some now') ∧
    (∀ role content, (sm.AddMessage now id role content).1 = true →
      ((((sm.AddMessage now id role content).2).sessions.lookup id).map Session.UpdatedAt) =
        some now) := by
  refine ⟨fun h => ?_, fun h => ?_, fun now' fid => ⟨rfl, ?_⟩, fun role content htrue => ?_⟩
  · have hc : ¬ (now - s.UpdatedAt > sm.ttl) := by omega
    simp [SessionManager.Get, hs, hc]
  · have hc : now - s.UpdatedAt > sm.ttl := by omega
    constructor
    · simp [SessionManager.Get, hs, hc]
    · simp [SessionManager.Get, hs, hc, lookup_erase_self]
  · simp [SessionManager.Create, lookup_cons_self]
  · by_cases hc : now - s.UpdatedAt > sm.ttl
    · exfalso
      simp [SessionManager.AddMessage, hs, hc] at htrue
    · simp [SessionManager.AddMessage, hs, hc, lookup_cons_self]

/-- Witness for C3: a one-session store with TTL 100 and last-active 0,
queried at instant 50 (strictly before expiry). -/
theorem C3_ttl_correctness_witness :
    ((((NewSessionManager 100).Create 0 "aa").2).sessions.lookup "aa" =
      some { ID := "aa", Messages := [], CreatedAt := 0, UpdatedAt := 0 }) ∧
    (50 < (0 : Int) + 100 ∧
     (((NewSessionManager 100).Create 0 "aa").2).Get 50 "aa" =
       (some { ID := "aa", Messages := [], CreatedAt := 0, UpdatedAt := 0 },
        (((NewSessionManager 100).Create 0 "aa").2))) :=
  ⟨by decide, by decide,
   (C3_ttl_correctness (((NewSessionManager 100).Create 0 "aa").2) "aa"
     { ID := "aa", Messages := [], CreatedAt := 0, UpdatedAt := 0 } 50
     (by decide)).1 (by decide)⟩

/-- C4: FollowUp with an empty session id, and FollowUp with an id that
`Get` cannot resolve (absent or expired), both return an error, and the
call creates no session — every id reachable in the store afterwards was
already reachable before. -/
theorem C4_followup_guard (model : LLMModel) (sm : SessionManager) (now : Int)
    (q sessionID : String)
    (h : sessionID = "" ∨ (sm.Get now sessionID).1 = none) :
    (∃ e, (Analyzer.FollowUp model sm now q sessionID).1 = Except.error e) ∧
    (∀ id, (((Analyzer.FollowUp model sm now q sessionID).2).sessions.lookup id).isSome →
      (sm.sessions.lookup id).isSome) := by
  by_cases h0 : sessionID = ""
  · subst h0
    exact ⟨⟨"session_id is required for follow-up questions", rfl⟩, fun id hid => hid⟩
  · have hget : (sm.Get now sessionID).1 = none := by
      rcases h with h | h
      · exact absurd h h0
      · exact h
    have hb : (sessionID == "") = false := beq_eq_false_iff_ne.mpr h0
    rcases hG : sm.Get now sessionID with ⟨o, sm1⟩
    have ho : o = none := by rw [hG] at hget; exact hget
    subst ho
    have hsm1 : sm1 = (sm.Get now sessionID).2 := by rw [hG]
    refine ⟨⟨"session not found or expired", ?_⟩, fun id hid => ?_⟩
    · simp [Analyzer.FollowUp, hb, hG]
    · simp only [Analyzer.FollowUp, hb, Bool.false_eq_true, if_false, hG] at hid
      rw [hsm1] at hid
      exact get_snd_lookup sm now sessionID id hid

/-- Witness for C4: an unknown id on an empty store, with a model that
would succeed if it were ever consulted. -/
theorem C4_followup_guard_witness :
    (("zz" : String) = "" ∨ ((NewSessionManager 5).Get 0 "zz").1 = none) ∧
    ((∃ e, (Analyzer.FollowUp (fun _ => .success ["ok"]) (NewSessionManager 5) 0 "q" "zz").1 =
        Except.error e) ∧
     (∀ id,
        (((Analyzer.FollowUp (fun _ => .success ["ok"]) (NewSessionManager 5) 0 "q" "zz").2).sessions.lookup id).isSome →
        (((NewSessionManager 5) : SessionManager).sessions.lookup id).isSome)) :=
  ⟨Or.inr (by decide),
   C4_followup_guard (fun _ => .success ["ok"]) (NewSessionManager 5) 0 "q" "zz"
     (Or.inr (by decide))⟩

/-- C6: atomicity of a conversation turn — when every model invocation
fails (a provider error or an empty-candidate response, as produced by
cancellation too), `analyze` (the shared pipeline of AnalyzeSpan and
AnalyzeTrace) and `FollowUp` both return an error, and no partial exchange
is persisted: every session reachable afterwards has exactly the message
list it had before, except that a stateless `analyze` call may leave behind
a fresh session holding only the seeded system prompt (and never the user
turn or an assistant response). -/
theorem C6_turn_atomicity (model : LLMModel) (sm : SessionManager) (now : Int)
    (freshId sysP userP q sid : String)
    (hm : ∀ msgs, ∃ e, Analyzer.callModel model msgs = Except.error e) :
    ((Analyzer.analyze model sm now freshId sysP userP sid).1.err ≠ none ∧
     ∀ id s',
       ((Analyzer.analyze model sm now freshId sysP userP sid).2).sessions.lookup id =
         some s' →
       (∃ s0, sm.sessions.lookup id = some s0 ∧ s'.Messages = s0.Messages) ∨
       (sid = "" ∧ id = freshId ∧
         s'.Messages = [{ Role := RoleSystem, Content := sysP }])) ∧
    ((∃ e, (Analyzer.FollowUp model sm now q sid).1 = Except.error e) ∧
     ∀ id s',
       ((Analyzer.FollowUp model sm now q sid).2).sessions.lookup id = some s' →
       ∃ s0, sm.sessions.lookup id = some s0 ∧ s'.Messages = s0.Messages) := by
  constructor
  · by_cases hsid : sid = ""
    · subst hsid
      by_cases h0 : now - now > sm.ttl
      · rw [analyze_fresh_expired model sm now freshId sysP userP h0]
        obtain ⟨e, he⟩ := analyzeResolved_model_error model
          { sm with sessions := eraseSession freshId sm.sessions } now
          { ID := freshId, Messages := [], CreatedAt := now, UpdatedAt := now } userP hm
        rw [he]
        refine ⟨by simp, fun id s' hid => ?_⟩
        have hid2 : (eraseSession freshId sm.sessions).lookup id = some s' := hid
        by_cases hidf : id = freshId
        · subst hidf
          rw [lookup_erase_self] at hid2
          cases hid2
        · rw [lookup_erase_ne freshId id hidf] at hid2
          exact Or.inl ⟨s', hid2, rfl⟩
      · rw [analyze_fresh_resolved model sm now freshId sysP userP h0]
        have hsN : ∃ sN : Session,
            sN = { ID := freshId,
                   Messages := [{ Role := RoleSystem, Content := sysP }],
                   CreatedAt := now, UpdatedAt := now } := ⟨_, rfl⟩
        obtain ⟨sN, hsN⟩ := hsN
        rw [← hsN]
        obtain ⟨e, he⟩ := analyzeResolved_model_error model
          { sm with sessions := (freshId, sN) :: eraseSession freshId sm.sessions }
          now sN userP hm
        rw [he]
        refine ⟨by simp, fun id s' hid => ?_⟩
        have hid2 : ((freshId, sN) :: eraseSession freshId sm.sessions).lookup id =
            some s' := hid
        by_cases hidf : id = freshId
        · subst hidf
          rw [lookup_cons_self] at hid2
          right
          refine ⟨rfl, rfl, ?_⟩
          rw [← Option.some_inj.mp hid2, hsN]
        · rw [lookup_cons_ne freshId id hidf, lookup_erase_ne freshId id hidf] at hid2
          exact Or.inl ⟨s', hid2, rfl⟩
    · have hb : (sid != "") = true := by simpa [bne_iff_ne] using hsid
      rcases hG : sm.Get now sid with ⟨o, sm1⟩
      cases o with
      | none =>
        have hred : Analyzer.analyze model sm now freshId sysP userP sid =
            ({ response := "", sid := "", err := some "session not found or expired" },
             sm1) := by
          unfold Analyzer.analyze
          rw [hb]
          simp only [if_true, hG]
        rw [hred]
        refine ⟨by simp, fun id s' hid => ?_⟩
        have hid2 : ((sm.Get now sid).2).sessions.lookup id = some s' := by
          rw [hG]; exact hid
        exact Or.inl ⟨s', get_snd_lookup_eq sm now sid id s' hid2, rfl⟩
      | some session =>
        have hsome : sm.Get now sid = (some session, sm) :=
          get_some_snd sm now sid session (by rw [hG])
        have hred : Analyzer.analyze model sm now freshId sysP userP sid =
            Analyzer.analyzeResolved model sm now session userP := by
          unfold Analyzer.analyze
          rw [hb]
          simp only [if_true, hsome]
        obtain ⟨e, he⟩ := analyzeResolved_model_error model sm now session userP hm
        rw [hred, he]
        exact ⟨by simp, fun id s' hid => Or.inl ⟨s', hid, rfl⟩⟩
  · by_cases hsid : sid = ""
    · subst hsid
      exact ⟨⟨"session_id is required for follow-up questions", rfl⟩,
        fun id s' hid => ⟨s', hid, rfl⟩⟩
    · have hbeq : (sid == "") = false := beq_eq_false_iff_ne.mpr hsid
      rcases hG : sm.Get now sid with ⟨o, sm1⟩
      cases o with
      | none =>
        have hred : Analyzer.FollowUp model sm now q sid =
            (.error "session not found or expired", sm1) := by
          unfold Analyzer.FollowUp
          rw [hbeq]
          simp only [Bool.false_eq_true, if_false, hG]
        rw [hred]
        refine ⟨⟨"session not found or expired", rfl⟩, fun id s' hid => ?_⟩
        have hid2 : ((sm.Get now sid).2).sessions.lookup id = some s' := by
          rw [hG]; exact hid
        exact ⟨s', get_snd_lookup_eq sm now sid id s' hid2, rfl⟩
      | some session =>
        have hsome : sm.Get now sid = (some session, sm) :=
          get_some_snd sm now sid session (by rw [hG])
        obtain ⟨e, he⟩ := hm (Analyzer.buildMessagesFromSession session ++
          [{ role := .human, content := q }])
        have hred : Analyzer.FollowUp model sm now q sid = (.error e, sm) := by
          unfold Analyzer.FollowUp
          rw [hbeq]
          simp only [Bool.false_eq_true, if_false, hsome, he]
        rw [hred]
        exact ⟨⟨e, rfl⟩, fun id s' hid => ⟨s', hid, rfl⟩⟩

/-- Witness for C6: an always-failing model on a one-session store, with a
stateless analyze call and an (empty-id) follow-up. -/
theorem C6_turn_atomicity_witness :
    (∀ msgs, ∃ e,
      Analyzer.callModel (fun _ => .failure "boom") msgs = Except.error e) ∧
    (((Analyzer.analyze (fun _ => .failure "boom")
        (((NewSessionManager 10).Create 0 "aa").2) 0 "bb" "s" "u" "").1.err ≠ none ∧
      ∀ id s',
        ((Analyzer.analyze (fun _ => .failure "boom")
          (((NewSessionManager 10).Create 0 "aa").2) 0 "bb" "s" "u" "").2).sessions.lookup id =
          some s' →
        (∃ s0, (((NewSessionManager 10).Create 0 "aa").2).sessions.lookup id = some s0 ∧
          s'.Messages = s0.Messages) ∨
        (("" : String) = "" ∧ id = "bb" ∧
          s'.Messages = [{ Role := RoleSystem, Content := "s" }])) ∧
     ((∃ e, (Analyzer.FollowUp (fun _ => .failure "boom")
        (((NewSessionManager 10).Create 0 "aa").2) 0 "q" "").1 = Except.error e) ∧
      ∀ id s',
        ((Analyzer.FollowUp (fun _ => .failure "boom")
          (((NewSessionManager 10).Create 0 "aa").2) 0 "q" "").2).sessions.lookup id =
          some s' →
        ∃ s0, (((NewSessionManager 10).Create 0 "aa").2).sessions.lookup id = some s0 ∧
          s'.Messages = s0.Messages)) :=
  ⟨fun _ => ⟨"llm generation failed: boom", rfl⟩,
   C6_turn_atomicity (fun _ => .failure "boom")
     (((NewSessionManager 10).Create 0 "aa").2) 0 "bb" "s" "u" "q" ""
     (fun _ => ⟨"llm generation failed: boom", rfl⟩)⟩

/-- C8: a stateless AnalyzeSpan call that succeeds returns the
32-hex-character id of the freshly created session, and after a subsequent
successful FollowUp with that id the stored message order is exactly:
system prompt, original user turn, original assistant answer, follow-up
question, follow-up answer. -/
theorem C8_stateless_then_followup (model : LLMModel) (sm : SessionManager)
    (bytes : List Nat) (spanText q r1 r2 : String) (now1 now2 : Int)
    (hlen : bytes.length = 16)
    (h0 : 0 ≤ sm.ttl) (h2 : now2 - now1 ≤ sm.ttl)
    (hm1 : Analyzer.callModel model
      [{ role := .system, content := spanAnalysisSystemPrompt },
       { role := .human, content := "Explain this span:\n\n" ++ spanText }] =
      .ok r1)
    (hm2 : Analyzer.callModel model
      [{ role := .system, content := spanAnalysisSystemPrompt },
       { role := .human, content := "Explain this span:\n\n" ++ spanText },
       { role := .ai, content := r1 },
       { role := .human, content := q }] = .ok r2) :
    (generateSessionID bytes).length = 32 ∧
    (∀ c ∈ (generateSessionID bytes).data, c ∈ hextable) ∧
    ∃ sm1 sm2,
      Analyzer.AnalyzeSpan model sm now1 (generateSessionID bytes) spanText "" =
        ({ response := r1, sid := generateSessionID bytes, err := none }, sm1) ∧
      Analyzer.FollowUp model sm1 now2 q (generateSessionID bytes) =
        (Except.ok r2, sm2) ∧
      (sm2.sessions.lookup (generateSessionID bytes)).map Session.Messages =
        some [{ Role := RoleSystem, Content := spanAnalysisSystemPrompt },
              { Role := RoleUser, Content := "Explain this span:\n\n" ++ spanText },
              { Role := RoleAssistant, Content := r1 },
              { Role := RoleUser, Content := q },
              { Role := RoleAssistant, Content := r2 }] := by
  have hidlen : (generateSessionID bytes).length = 32 := by
    rw [generateSessionID_length, hlen]
  refine ⟨hidlen, generateSessionID_chars bytes, ?_⟩
  have hidne : generateSessionID bytes ≠ "" := by
    intro hemp
    rw [hemp] at hidlen
    simp at hidlen
  have h01 : ¬ ((now1 : Int) - now1 > sm.ttl) := by omega
  have hspan := analyze_fresh_success model sm now1 (generateSessionID bytes)
    spanAnalysisSystemPrompt ("Explain this span:\n\n" ++ spanText) r1 h01 hm1
  have hfu := followUp_success model
    { sm with sessions :=
        (generateSessionID bytes,
          { ID := generateSessionID bytes,
            Messages := [{ Role := RoleSystem, Content := spanAnalysisSystemPrompt },
                         { Role := RoleUser,
                           Content := "Explain this span:\n\n" ++ spanText },
                         { Role := RoleAssistant, Content := r1 }],
            CreatedAt := now1, UpdatedAt := now1 }) ::
        eraseSession (generateSessionID bytes) sm.sessions }
    now2 q (generateSessionID bytes) r2
    { ID := generateSessionID bytes,
      Messages := [{ Role := RoleSystem, Content := spanAnalysisSystemPrompt },
                   { Role := RoleUser, Content := "Explain this span:\n\n" ++ spanText },
                   { Role := RoleAssistant, Content := r1 }],
      CreatedAt := now1, UpdatedAt := now1 }
    (beq_eq_false_iff_ne.mpr hidne) (lookup_cons_self _ _ _)
    (by dsimp only; omega) (by dsimp only; omega)
    (by simpa [Analyzer.buildMessagesFromSession, RoleSystem, RoleAssistant,
      RoleUser] using hm2)
    (by simp [maxMessagesPerSession]) (by simp [maxMessagesPerSession])
  refine ⟨_, _, hspan, hfu, ?_⟩
  rw [lookup_cons_self]
  simp

/-- Witness for C8: concrete zero bytes, a TTL of 1000, both calls at
instant 0, and a model answering "A1" to the two-message list and "A2" to
the longer follow-up list. -/
theorem C8_stateless_then_followup_witness :
    ((List.replicate 16 0).length = 16) ∧
    (0 ≤ (NewSessionManager 1000).ttl) ∧
    ((0 : Int) - 0 ≤ (NewSessionManager 1000).ttl) ∧
    (Analyzer.callModel
      (fun msgs => if msgs.length ≤ 2
        then LLMResult.success ["A1"] else LLMResult.success ["A2"])
      [{ role := .system, content := spanAnalysisSystemPrompt },
       { role := .human, content := "Explain this span:\n\n" ++ "x" }] =
      .ok "A1") ∧
    (Analyzer.callModel
      (fun msgs => if msgs.length ≤ 2
        then LLMResult.success ["A1"] else LLMResult.success ["A2"])
      [{ role := .system, content := spanAnalysisSystemPrompt },
       { role := .human, content := "Explain this span:\n\n" ++ "x" },
       { role := .ai, content := "A1" },
       { role := .human, content := "Q" }] = .ok "A2") ∧
    ((generateSessionID (List.replicate 16 0)).length = 32 ∧
     (∀ c ∈ (generateSessionID (List.replicate 16 0)).data, c ∈ hextable) ∧
     ∃ sm1 sm2,
       Analyzer.AnalyzeSpan
         (fun msgs => if msgs.length ≤ 2
           then LLMResult.success ["A1"] else LLMResult.success ["A2"])
         (NewSessionManager 1000) 0 (generateSessionID (List.replicate 16 0)) "x" "" =
         ({ response := "A1", sid := generateSessionID (List.replicate 16 0), err := none },
          sm1) ∧
       Analyzer.FollowUp
         (fun msgs => if msgs.length ≤ 2
           then LLMResult.success ["A1"] else LLMResult.success ["A2"])
         sm1 0 "Q" (generateSessionID (List.replicate 16 0)) =
         (Except.ok "A2", sm2) ∧
       (sm2.sessions.lookup (generateSessionID (List.replicate 16 0))).map Session.Messages =
         some [{ Role := RoleSystem, Content := spanAnalysisSystemPrompt },
               { Role := RoleUser, Content := "Explain this span:\n\n" ++ "x" },
               { Role := RoleAssistant, Content := "A1" },
               { Role := RoleUser, Content := "Q" },
               { Role := RoleAssistant, Content := "A2" }]) :=
  ⟨by decide, by decide, by decide, rfl, rfl,
   C8_stateless_then_followup
     (fun msgs => if msgs.length ≤ 2
       then LLMResult.success ["A1"] else LLMResult.success ["A2"])
     (NewSessionManager 1000) (List.replicate 16 0) "x" "Q" "A1" "A2" 0 0
     (by decide) (by decide) (by decide) rfl rfl⟩

/-- Witness for C10 on the input "hello", on which every pattern misses:
the inner no-match hypotheses are all satisfied and every field of the
result is at its zero value, with a nil error. -/
theorem C10_extract_total_witness :
    (FindStringSubmatch serviceFromPattern "hello" = none) ∧
    (FindStringSubmatch serviceInPattern "hello" = none) ∧
    (FindStringSubmatch operationPattern "hello" = none) ∧
    (extractHTTPStatusCode "hello" = "") ∧
    (FindStringSubmatch minDurationPattern "hello" = none) ∧
    (FindStringSubmatch maxDurationPattern "hello" = none) ∧
    ((HeuristicExtractor.Extract { cancelled := true } "hello").2 = none ∧
     (HeuristicExtractor.Extract { cancelled := true } "hello").1.SearchDepth = 0 ∧
     (HeuristicExtractor.Extract { cancelled := true } "hello").1.Service = "" ∧
     (HeuristicExtractor.Extract { cancelled := true } "hello").1.Operation = "" ∧
     (HeuristicExtractor.Extract { cancelled := true } "hello").1.Tags = none ∧
     (HeuristicExtractor.Extract { cancelled := true } "hello").1.MinDuration = "" ∧
     (HeuristicExtractor.Extract { cancelled := true } "hello").1.MaxDuration = "") :=
  ⟨rfl, rfl, rfl, by decide, rfl, rfl,
   (C10_extract_total { cancelled := true } "hello").1,
   (C10_extract_total { cancelled := true } "hello").2.1,
   (C10_extract_total { cancelled := true } "hello").2.2.1 rfl rfl,
   (C10_extract_total { cancelled := true } "hello").2.2.2.1 rfl,
   (C10_extract_total { cancelled := true } "hello").2.2.2.2.1 (by decide),
   (C10_extract_total { cancelled := true } "hello").2.2.2.2.2.1 rfl,
   (C10_extract_total { cancelled := true } "hello").2.2.2.2.2.2 rfl⟩

end NLQuery
